import Mathlib

/-! Shallow embedding of `src/RPN_Calc/main.py`: a bounded stack (`MyStack`)
backed by fixed-length zero-initialized storage, and a Reverse Polish
Notation evaluator (`RpnCalculator`) with a recursive multiply primitive.

Python exceptions are modelled by the `Err` type below, following the
error taxonomy of the design document (the Python code distinguishes the
same conditions by message text):
  * `ValueError("Capacity ... is invalid")`   ↦ `Err.invalidCapacity`
  * `IndexError("Push failed - capacity reached")` ↦ `Err.stackOverflow`
  * `IndexError("Pop failed - stack is empty")`    ↦ `Err.stackUnderflow`
  * `ValueError("Unknown operator")`          ↦ `Err.unknownOperator`
  * `IndexError("Not enough operator")`       ↦ `Err.malformedExpression`
Floor division contributes no error kind: the popped operands are numpy
int64 scalars, and numpy integer floor division by zero does not raise —
it emits a `RuntimeWarning` and yields 0, exactly `Int.fdiv`'s value at a
zero divisor.

Mutating methods are embedded state-passing style: a method that can raise
returns the post-state paired with an optional error (the Python object is
unchanged when the method raises before mutating, and the returned state
makes that explicit and provable).
-/

inductive Err where
  | invalidCapacity
  | stackOverflow
  | stackUnderflow
  | unknownOperator
  | malformedExpression
deriving DecidableEq

/-- The stack object: `capacity` and `top_of_stack` are Python ints (ℤ),
`stack` is the numpy backing array (`np.zeros([capacity], dtype=int)`)
modelled as a list of integers of length `capacity`. -/
structure MyStack where
  capacity : ℤ
  default_item : ℤ
  stack : List ℤ
  top_of_stack : ℤ
deriving DecidableEq

def MyStack.MAX_CAPACITY : ℤ := 100000

def MyStack.DEFAULT_CAPACITY : ℤ := 10

/-- `validate_capacity`: `0 <= capacity <= cls.MAX_CAPACITY`. -/
def MyStack.validate_capacity (capacity : ℤ) : Bool :=
  decide (0 ≤ capacity ∧ capacity ≤ MyStack.MAX_CAPACITY)

/-- `clear`: `self.stack = np.zeros([self.capacity], dtype=int)`,
`self.top_of_stack = 0`. -/
def MyStack.clear (s : MyStack) : MyStack :=
  { s with stack := List.replicate s.capacity.toNat 0, top_of_stack := 0 }

/-- `__init__(self, default_item, capacity)`: validate, store the fields,
then `self.clear()`.  Raising is modelled as `Except.error`. -/
def MyStack.new (default_item : ℤ) (capacity : ℤ) : Except Err MyStack :=
  if MyStack.validate_capacity capacity then
    .ok (MyStack.clear
      { capacity := capacity, default_item := default_item,
        stack := [], top_of_stack := 0 })
  else
    .error .invalidCapacity

def MyStack.is_empty (s : MyStack) : Bool := s.top_of_stack == 0

def MyStack.is_full (s : MyStack) : Bool := s.top_of_stack == s.capacity

def MyStack.get_capacity (s : MyStack) : ℤ := s.capacity

/-- `push`: raise on a full stack (state unchanged), else write the item at
index `top_of_stack` and increment `top_of_stack`. -/
def MyStack.push (s : MyStack) (item_to_push : ℤ) : MyStack × Option Err :=
  if s.is_full then
    (s, some .stackOverflow)
  else
    ({ s with stack := s.stack.set s.top_of_stack.toNat item_to_push,
              top_of_stack := s.top_of_stack + 1 }, none)

/-- `pop`: raise on an empty stack (state unchanged), else decrement
`top_of_stack` and return the element at the new `top_of_stack`. -/
def MyStack.pop (s : MyStack) : MyStack × Except Err ℤ :=
  if s.is_empty then
    (s, .error .stackUnderflow)
  else
    ({ s with top_of_stack := s.top_of_stack - 1 },
     .ok (s.stack.getD (s.top_of_stack - 1).toNat 0))

def RpnCalculator.ADDITION : String := "+"

def RpnCalculator.SUBTRACTION : String := "-"

def RpnCalculator.MULTIPLICATION : String := "*"

def RpnCalculator.FLOOR : String := "//"

/-- `mult(x, y)`: the recursive repeated-addition multiply, translated
verbatim — including the both-negative branch computing **both** "absolute
values" from `x` (`absolute_y = abs(x)` in the source). -/
def RpnCalculator.mult (x y : ℤ) : ℤ :=
  if y = 0 ∨ x = 0 then 0
  else if x < 0 ∧ y < 0 then
    let absolute_x := |x|
    let absolute_y := |x|
    absolute_y + RpnCalculator.mult absolute_y (absolute_x - 1)
  else if y < 0 ∧ 0 < x then
    y + RpnCalculator.mult y (x - 1)
  else
    x + RpnCalculator.mult x (y - 1)
termination_by (if y < 0 ∧ x ≠ 0 then 2 * x.natAbs + 1 else 2 * y.toNat)
decreasing_by
  all_goals try simp only [Int.abs_eq_natAbs]
  all_goals split_ifs <;> omega

/-- `my_stack.push(...)` inside the evaluator: a raising push aborts the
whole evaluation, so only the error escapes. -/
def RpnCalculator.pushE (s : MyStack) (v : ℤ) : Except Err MyStack :=
  match s.push v with
  | (s2, none) => .ok s2
  | (_, some e) => .error e

/-- `my_stack.pop()` inside the evaluator: a raising pop aborts the whole
evaluation. -/
def RpnCalculator.popE (s : MyStack) : Except Err (ℤ × MyStack) :=
  match s.pop with
  | (s2, .ok v) => .ok (v, s2)
  | (_, .error e) => .error e

/-- The `except ValueError` branch of `eval_tokens`: pop `right_arg`, pop
`left_arg`, dispatch on the operator symbol (in source order).  The
operands are numpy int64 scalars, so `//` by zero does not raise: numpy
emits a `RuntimeWarning` and yields 0, which matches `Int.fdiv` exactly
(`Int.fdiv left_arg 0 = 0`). -/
def RpnCalculator.evalOp (s : MyStack) (token : String) : Except Err MyStack :=
  match RpnCalculator.popE s with
  | .error e => .error e
  | .ok (right_arg, s1) =>
    match RpnCalculator.popE s1 with
    | .error e => .error e
    | .ok (left_arg, s2) =>
      if token = RpnCalculator.ADDITION then
        RpnCalculator.pushE s2 (left_arg + right_arg)
      else if token = RpnCalculator.SUBTRACTION then
        RpnCalculator.pushE s2 (left_arg - right_arg)
      else if token = RpnCalculator.FLOOR then
        RpnCalculator.pushE s2 (Int.fdiv left_arg right_arg)
      else if token = RpnCalculator.MULTIPLICATION then
        RpnCalculator.pushE s2 (RpnCalculator.mult left_arg right_arg)
      else
        .error .unknownOperator

/-- Value of a nonempty all-digit character run, most significant first. -/
def RpnCalculator.digitsVal (cs : List Char) : Nat :=
  cs.foldl (fun n c => 10 * n + (c.toNat - 48)) 0

/-- Python `int(token)` on a whitespace-free token: an optional sign
followed by at least one decimal digit; anything else raises `ValueError`
(modelled as `none`). -/
def RpnCalculator.int? (t : String) : Option ℤ :=
  match t.toList with
  | [] => none
  | '-' :: rest =>
    if rest ≠ [] ∧ rest.all Char.isDigit then
      some (-(RpnCalculator.digitsVal rest : ℤ))
    else none
  | '+' :: rest =>
    if rest ≠ [] ∧ rest.all Char.isDigit then
      some ((RpnCalculator.digitsVal rest : ℤ))
    else none
  | cs =>
    if cs.all Char.isDigit then some ((RpnCalculator.digitsVal cs : ℤ))
    else none

/-- One iteration of the token loop: `int(token)` succeeding pushes the
integer; `ValueError` takes the operator branch. -/
def RpnCalculator.evalStep (s : MyStack) (token : String) : Except Err MyStack :=
  match RpnCalculator.int? token with
  | some token_int => RpnCalculator.pushE s token_int
  | none => RpnCalculator.evalOp s token

/-- The `for token in tokens` loop of `eval_tokens`. -/
def RpnCalculator.evalTokensLoop (s : MyStack) : List String → Except Err MyStack
  | [] => .ok s
  | t :: ts =>
    match RpnCalculator.evalStep s t with
    | .error e => .error e
    | .ok s2 => RpnCalculator.evalTokensLoop s2 ts

/-- `eval_tokens(tokens)`: allocate `MyStack(1, 1000)`, run the loop, then
the final check `if my_stack.top_of_stack // 2 != 0: raise` (Python `//`
is flooring division, `Int.fdiv`), else return `my_stack.pop()`. -/
def RpnCalculator.eval_tokens (tokens : List String) : Except Err ℤ :=
  match MyStack.new 1 1000 with
  | .error e => .error e
  | .ok my_stack =>
    match RpnCalculator.evalTokensLoop my_stack tokens with
    | .error e => .error e
    | .ok sf =>
      if Int.fdiv sf.top_of_stack 2 ≠ 0 then .error .malformedExpression
      else
        match sf.pop with
        | (_, .ok v) => .ok v
        | (_, .error e) => .error e

/-- Helper for `str.split()`: accumulate the current run of non-whitespace
characters (reversed) and split on runs of whitespace, dropping empties. -/
def RpnCalculator.splitWsAux : List Char → List Char → List String
  | [], acc => if acc.isEmpty then [] else [String.mk acc.reverse]
  | c :: cs, acc =>
    if c.isWhitespace then
      if acc.isEmpty then RpnCalculator.splitWsAux cs []
      else String.mk acc.reverse :: RpnCalculator.splitWsAux cs []
    else RpnCalculator.splitWsAux cs (c :: acc)

/-- `parse(rpn_expression)`: Python `str.split()` with no argument —
split on runs of whitespace, no empty tokens; `""` yields `[]`. -/
def RpnCalculator.parse (rpn_expression : String) : List String :=
  RpnCalculator.splitWsAux rpn_expression.toList []

/-- `eval(rpn_expression) = eval_tokens(parse(rpn_expression))`. -/
def RpnCalculator.eval (rpn_expression : String) : Except Err ℤ :=
  RpnCalculator.eval_tokens (RpnCalculator.parse rpn_expression)

/-- Fuel-indexed variant of `mult`, used to state termination (claim C10):
`none` means the fuel ran out before the recursion bottomed out. -/
def RpnCalculator.multFuel : Nat → ℤ → ℤ → Option ℤ
  | 0, _, _ => none
  | n + 1, x, y =>
    if y = 0 ∨ x = 0 then some 0
    else if x < 0 ∧ y < 0 then
      (RpnCalculator.multFuel n |x| (|x| - 1)).map (fun r => |x| + r)
    else if y < 0 ∧ 0 < x then
      (RpnCalculator.multFuel n y (x - 1)).map (fun r => y + r)
    else
      (RpnCalculator.multFuel n x (y - 1)).map (fun r => x + r)

/-- Depth of `mult`'s recursion tree (a non-negative measure derived from
the operands; each recursive call strictly decreases it). -/
def RpnCalculator.multDepth (x y : ℤ) : Nat :=
  if y = 0 ∨ x = 0 then 1
  else if x < 0 ∧ y < 0 then x.natAbs + 1
  else if y < 0 ∧ 0 < x then x.toNat + 1
  else y.toNat + 1

/-- The stack `MyStack(1, 1000)` allocated by `eval_tokens`. -/
def initStack : MyStack :=
  { capacity := 1000, default_item := 1,
    stack := List.replicate 1000 0, top_of_stack := 0 }

/-- Stack states reachable by any sequence of `new`, `clear`, `push`, `pop`
(failed pushes and pops return the unchanged state, so they are covered by
the `push`/`pop` constructors as well). -/
inductive ReachableStack : MyStack → Prop where
  | new (default_item capacity : ℤ) (s : MyStack) :
      MyStack.new default_item capacity = .ok s → ReachableStack s
  | clear (s : MyStack) : ReachableStack s → ReachableStack s.clear
  | push (s : MyStack) (v : ℤ) : ReachableStack s → ReachableStack (s.push v).1
  | pop (s : MyStack) : ReachableStack s → ReachableStack (s.pop).1

/-! Helper lemmas about the embedded operations. -/

theorem pushE_eq (s : MyStack) (v : ℤ) :
    RpnCalculator.pushE s v =
      if s.top_of_stack = s.capacity then .error .stackOverflow
      else .ok { s with stack := s.stack.set s.top_of_stack.toNat v,
                        top_of_stack := s.top_of_stack + 1 } := by
  unfold RpnCalculator.pushE MyStack.push MyStack.is_full
  by_cases h : s.top_of_stack = s.capacity
  · simp [h]
  · simp [h]

theorem popE_eq (s : MyStack) :
    RpnCalculator.popE s =
      if s.top_of_stack = 0 then .error .stackUnderflow
      else .ok (s.stack.getD (s.top_of_stack - 1).toNat 0,
                { s with top_of_stack := s.top_of_stack - 1 }) := by
  unfold RpnCalculator.popE MyStack.pop MyStack.is_empty
  by_cases h : s.top_of_stack = 0
  · simp [h]
  · simp [h]

theorem new_1000 : MyStack.new 1 1000 = .ok initStack := rfl

/-- `mult` with a non-negative second operand is repeated addition of the
first operand, i.e. the true product. -/
theorem mult_natCast (n : Nat) (x : ℤ) : RpnCalculator.mult x n = x * n := by
  induction n with
  | zero => rw [RpnCalculator.mult.eq_def]; simp
  | succ k ih =>
    rw [RpnCalculator.mult.eq_def]
    by_cases hx : x = 0
    · simp [hx]
    · have c1 : ¬(((k + 1 : Nat) : ℤ) = 0 ∨ x = 0) := by push_cast; omega
      have c2 : ¬(x < 0 ∧ ((k + 1 : Nat) : ℤ) < 0) := by push_cast; omega
      have c3 : ¬(((k + 1 : Nat) : ℤ) < 0 ∧ 0 < x) := by push_cast; omega
      rw [if_neg c1, if_neg c2, if_neg c3]
      have hk : ((k + 1 : Nat) : ℤ) - 1 = (k : ℤ) := by push_cast; ring
      rw [hk, ih]
      push_cast; ring

/-- Closed form of the translated `mult`: the true product except when both
operands are negative, where the `absolute_y = abs(x)` slip makes the
result `x * x` instead of `x * y`. -/
theorem mult_master (x y : ℤ) :
    RpnCalculator.mult x y = if x < 0 ∧ y < 0 then x * x else x * y := by
  split_ifs with h
  · rw [RpnCalculator.mult.eq_def, if_neg (by omega), if_pos h]
    show |x| + RpnCalculator.mult |x| (|x| - 1) = x * x
    rw [abs_of_neg h.1]
    have h1 : (0 : ℤ) ≤ -x - 1 := by omega
    rw [← Int.toNat_of_nonneg h1, mult_natCast, Int.toNat_of_nonneg h1]
    ring
  · rcases le_or_lt 0 y with hy | hy
    · rw [← Int.toNat_of_nonneg hy]
      exact mult_natCast y.toNat x
    · have hx : 0 ≤ x := by omega
      rcases hx.eq_or_lt with hx0 | hxp
      · subst hx0
        rw [RpnCalculator.mult.eq_def, if_pos (Or.inr rfl)]
        ring
      · rw [RpnCalculator.mult.eq_def,
          if_neg (by omega), if_neg (by omega), if_pos ⟨hy, hxp⟩]
        have h1 : (0 : ℤ) ≤ x - 1 := by omega
        rw [← Int.toNat_of_nonneg h1, mult_natCast, Int.toNat_of_nonneg h1]
        ring

/-- Flooring division is invariant under negating both operands. -/
theorem fdiv_neg_neg (a b : ℤ) : Int.fdiv (-a) (-b) = Int.fdiv a b := by
  cases a with
  | ofNat m =>
    cases m with
    | zero => simp
    | succ m =>
      cases b with
      | ofNat n =>
        cases n with
        | zero =>
          show (0 : ℤ) = Int.ofNat (m.succ / 0)
          rw [Nat.div_zero]
          rfl
        | succ n => rfl
      | negSucc n => rfl
  | negSucc m =>
    cases b with
    | ofNat n =>
      cases n with
      | zero =>
        show Int.ofNat (m.succ / 0) = (0 : ℤ)
        rw [Nat.div_zero]
        rfl
      | succ n => rfl
    | negSucc n => rfl

theorem fdiv_eq_floor_pos (a b : ℤ) (hb : 0 < b) :
    Int.fdiv a b = ⌊(a : ℚ) / (b : ℚ)⌋ := by
  obtain ⟨n, rfl⟩ := Int.eq_ofNat_of_zero_le hb.le
  rw [Int.fdiv_eq_ediv a (by positivity), Int.cast_natCast]
  exact (Rat.floor_intCast_div_natCast a n).symm

/-- Python `//` on integers: `Int.fdiv` is the floor of the rational
quotient whenever the divisor is nonzero. -/
theorem fdiv_eq_floor (a b : ℤ) (hb : b ≠ 0) :
    Int.fdiv a b = ⌊(a : ℚ) / (b : ℚ)⌋ := by
  rcases hb.lt_or_lt with h | h
  · rw [← fdiv_neg_neg a b, fdiv_eq_floor_pos (-a) (-b) (by omega)]
    congr 1
    push_cast
    rw [neg_div_neg_eq]
  · exact fdiv_eq_floor_pos a b h

/-- Closed-form equation for the operator branch: two guarded pops, then
dispatch. -/
theorem evalOp_eq (s : MyStack) (t : String) :
    RpnCalculator.evalOp s t =
      if s.top_of_stack = 0 then .error .stackUnderflow
      else if s.top_of_stack - 1 = 0 then .error .stackUnderflow
      else
        if t = RpnCalculator.ADDITION then
          RpnCalculator.pushE { s with top_of_stack := s.top_of_stack - 1 - 1 }
            (s.stack.getD (s.top_of_stack - 1 - 1).toNat 0 +
             s.stack.getD (s.top_of_stack - 1).toNat 0)
        else if t = RpnCalculator.SUBTRACTION then
          RpnCalculator.pushE { s with top_of_stack := s.top_of_stack - 1 - 1 }
            (s.stack.getD (s.top_of_stack - 1 - 1).toNat 0 -
             s.stack.getD (s.top_of_stack - 1).toNat 0)
        else if t = RpnCalculator.FLOOR then
          RpnCalculator.pushE { s with top_of_stack := s.top_of_stack - 1 - 1 }
            (Int.fdiv (s.stack.getD (s.top_of_stack - 1 - 1).toNat 0)
              (s.stack.getD (s.top_of_stack - 1).toNat 0))
        else if t = RpnCalculator.MULTIPLICATION then
          RpnCalculator.pushE { s with top_of_stack := s.top_of_stack - 1 - 1 }
            (RpnCalculator.mult (s.stack.getD (s.top_of_stack - 1 - 1).toNat 0)
              (s.stack.getD (s.top_of_stack - 1).toNat 0))
        else
          .error .unknownOperator := by
  unfold RpnCalculator.evalOp
  by_cases h0 : s.top_of_stack = 0 <;> by_cases h1 : s.top_of_stack - 1 = 0 <;>
    simp [popE_eq, h0, h1]

/-- One successful evaluator step keeps `top_of_stack` non-negative. -/
theorem evalStep_ok_top {s s2 : MyStack} {t : String}
    (h : RpnCalculator.evalStep s t = .ok s2) (hs : 0 ≤ s.top_of_stack) :
    0 ≤ s2.top_of_stack := by
  unfold RpnCalculator.evalStep at h
  split at h
  · rw [pushE_eq] at h
    split_ifs at h <;>
      first
        | exact Except.noConfusion h
        | (simp only [Except.ok.injEq] at h
           subst h
           show (0 : ℤ) ≤ s.top_of_stack + 1
           omega)
  · rw [evalOp_eq] at h
    split_ifs at h <;>
      first
        | exact Except.noConfusion h
        | (rw [pushE_eq] at h
           split_ifs at h <;>
             first
               | exact Except.noConfusion h
               | (simp only [Except.ok.injEq] at h
                  subst h
                  show (0 : ℤ) ≤ s.top_of_stack - 1 - 1 + 1
                  omega))

/-- The token loop keeps `top_of_stack` non-negative. -/
theorem evalTokensLoop_ok_top :
    ∀ (ts : List String) (s sf : MyStack), 0 ≤ s.top_of_stack →
      RpnCalculator.evalTokensLoop s ts = .ok sf → 0 ≤ sf.top_of_stack := by
  intro ts
  induction ts with
  | nil =>
    intro s sf hs h
    unfold RpnCalculator.evalTokensLoop at h
    simp only [Except.ok.injEq] at h
    subst h
    exact hs
  | cons t ts ih =>
    intro s sf hs h
    unfold RpnCalculator.evalTokensLoop at h
    split at h
    · exact Except.noConfusion h
    · next s2 heq => exact ih s2 sf (evalStep_ok_top heq hs) h

/-- C3 (amended): when every token processes without error, `eval_tokens`
succeeds — returning the top value — exactly when the final stack size is
1; with size ≥ 2 the final check raises `MalformedExpression`; with size 0
(only the empty token sequence) the check passes and the final pop raises
`StackUnderflow`. -/
theorem eval_tokens_final_stack_trichotomy (tokens : List String) (sf : MyStack)
    (h : RpnCalculator.evalTokensLoop initStack tokens = .ok sf) :
    ((∃ v, RpnCalculator.eval_tokens tokens = .ok v) ↔ sf.top_of_stack = 1) ∧
    (sf.top_of_stack = 1 →
      RpnCalculator.eval_tokens tokens = .ok (sf.stack.getD 0 0)) ∧
    (2 ≤ sf.top_of_stack →
      RpnCalculator.eval_tokens tokens = .error .malformedExpression) ∧
    (sf.top_of_stack = 0 →
      RpnCalculator.eval_tokens tokens = .error .stackUnderflow) := by
  have hnn : 0 ≤ sf.top_of_stack :=
    evalTokensLoop_ok_top tokens initStack sf le_rfl h
  have hev : RpnCalculator.eval_tokens tokens =
      (if Int.fdiv sf.top_of_stack 2 ≠ 0 then
        (.error .malformedExpression : Except Err ℤ)
       else
        match sf.pop with
        | (_, .ok v) => .ok v
        | (_, .error e) => .error e) := by
    unfold RpnCalculator.eval_tokens
    rw [new_1000]
    simp only [h]
  have p1 : sf.top_of_stack = 1 →
      RpnCalculator.eval_tokens tokens = .ok (sf.stack.getD 0 0) := by
    intro h1
    rw [hev, if_neg (by rw [h1]; decide)]
    unfold MyStack.pop MyStack.is_empty
    rw [h1]
    norm_num
  have p2 : 2 ≤ sf.top_of_stack →
      RpnCalculator.eval_tokens tokens = .error .malformedExpression := by
    intro h2
    rw [hev, if_pos (by rw [Int.fdiv_eq_ediv _ (by norm_num : (0:ℤ) ≤ 2)]; omega)]
  have p3 : sf.top_of_stack = 0 →
      RpnCalculator.eval_tokens tokens = .error .stackUnderflow := by
    intro h0
    rw [hev, if_neg (by rw [h0]; decide)]
    unfold MyStack.pop MyStack.is_empty
    rw [h0]
    norm_num
  refine ⟨⟨?_, fun h1 => ⟨_, p1 h1⟩⟩, p1, p2, p3⟩
  rintro ⟨v, hv⟩
  by_contra hne
  have hor : sf.top_of_stack = 0 ∨ 2 ≤ sf.top_of_stack := by omega
  rcases hor with h0 | h2
  · rw [p3 h0] at hv
    exact Except.noConfusion hv
  · rw [p2 h2] at hv
    exact Except.noConfusion hv

/-! Claim theorems. -/

/-- C3 counterexample: after the empty token sequence the stack size is 0
(different from 1), yet `eval_tokens` fails with `StackUnderflow` from the
final pop, not with `MalformedExpression` as the claim states. -/
theorem eval_tokens_empty_not_malformed :
    RpnCalculator.eval_tokens [] = .error .stackUnderflow ∧
    Err.stackUnderflow ≠ Err.malformedExpression :=
  ⟨rfl, by decide⟩

/-- Witness for the C3 trichotomy theorem at the token list `["7"]`. -/
theorem eval_tokens_final_stack_trichotomy_witness :
    RpnCalculator.eval_tokens ["7"] = .ok 7 :=
  (eval_tokens_final_stack_trichotomy ["7"]
    ⟨1000, 1, (List.replicate 1000 0).set 0 7, 1⟩ rfl).2.1 rfl

/-- C1 (failing input): the three-token expression `"-5 -27 *"` evaluates
to 25, not to the mathematical product `(-5) * (-27) = 135`, because of
the both-negative `mult` bug. -/
theorem eval_tokens_both_negative_mult_bug :
    RpnCalculator.eval_tokens ["-5", "-27", "*"] = .ok 25 ∧
    (-5 : ℤ) * (-27 : ℤ) = 135 := by
  constructor
  · have h1 : RpnCalculator.eval_tokens ["-5", "-27", "*"] =
        .ok (RpnCalculator.mult (-5) (-27)) := rfl
    rw [h1, mult_master]
    norm_num
  · norm_num

/-- C2 (failing input): `mult(-5, -27)` returns 25 (namely `(-5) * (-5)`),
not the positive product 135. -/
theorem mult_both_negative_bug :
    RpnCalculator.mult (-5) (-27) = 25 ∧ (25 : ℤ) ≠ (-5 : ℤ) * (-27 : ℤ) := by
  constructor
  · rw [mult_master]; norm_num
  · norm_num

/-- C4: a push on a full stack fails with `StackOverflow` and returns the
unchanged state; a pop on an empty stack fails with `StackUnderflow` and
returns the unchanged state. -/
theorem push_full_pop_empty_unchanged (s : MyStack) (v : ℤ) :
    (s.is_full = true → s.push v = (s, some Err.stackOverflow)) ∧
    (s.is_empty = true → s.pop = (s, Except.error Err.stackUnderflow)) := by
  constructor
  · intro h; unfold MyStack.push; rw [if_pos h]
  · intro h; unfold MyStack.pop; rw [if_pos h]

/-- Witness for C4 on the capacity-0 stack, which is simultaneously full
and empty. -/
theorem push_full_pop_empty_unchanged_witness :
    MyStack.push ⟨0, 1, [], 0⟩ 5 = (⟨0, 1, [], 0⟩, some Err.stackOverflow) ∧
    MyStack.pop ⟨0, 1, [], 0⟩ = (⟨0, 1, [], 0⟩, Except.error Err.stackUnderflow) :=
  ⟨(push_full_pop_empty_unchanged ⟨0, 1, [], 0⟩ 5).1 rfl,
   (push_full_pop_empty_unchanged ⟨0, 1, [], 0⟩ 5).2 rfl⟩

/-- C5: construction fails with `InvalidCapacity` exactly when the
capacity is negative or exceeds 100000, and otherwise yields the empty
stack (size 0) over zeroed storage of length `capacity`. -/
theorem new_capacity_validation (default_item capacity : ℤ) :
    ((capacity < 0 ∨ 100000 < capacity) ↔
      MyStack.new default_item capacity = .error .invalidCapacity) ∧
    ((0 ≤ capacity ∧ capacity ≤ 100000) ↔
      MyStack.new default_item capacity =
        .ok ⟨capacity, default_item, List.replicate capacity.toNat 0, 0⟩) := by
  unfold MyStack.new MyStack.validate_capacity MyStack.MAX_CAPACITY
  by_cases h : 0 ≤ capacity ∧ capacity ≤ 100000
  · rw [if_pos (by simpa using h)]
    constructor
    · constructor
      · intro hc; exact absurd hc (by omega)
      · intro hE; exact absurd hE (by simp)
    · constructor
      · intro _; rfl
      · intro _; exact h
  · rw [if_neg (by simpa using h)]
    constructor
    · constructor
      · intro _; rfl
      · intro _; omega
    · constructor
      · intro hc; exact absurd hc h
      · intro hE; exact absurd hE (by simp)

/-- Witness for C5: capacity −1 is rejected, capacity 0 yields an empty
stack. -/
theorem new_capacity_validation_witness :
    MyStack.new 1 (-1) = .error .invalidCapacity ∧
    MyStack.new 1 0 = .ok ⟨0, 1, [], 0⟩ :=
  ⟨(new_capacity_validation 1 (-1)).1.mp (Or.inl (by norm_num)),
   (new_capacity_validation 1 0).2.mp ⟨le_rfl, by norm_num⟩⟩

/-- C6 counterexample: a zero right operand does not make evaluation
fail — numpy floor division by zero warns and yields 0, so `1 // 0`
pushes 0 and `eval_tokens` returns 0. -/
theorem eval_tokens_div_zero_yields_zero :
    RpnCalculator.eval_tokens ["1", "0", "//"] = .ok 0 := rfl

/-- C6 (amended): with two successfully popped operands, `//` always
pushes the flooring quotient `Int.fdiv left_arg right_arg` and evaluation
continues.  For a nonzero right operand that value is the floor of the
rational quotient (round toward negative infinity, so `-7 // 2 = -4`);
for a zero right operand numpy warns and yields 0, so 0 is pushed and no
error is raised. -/
theorem floor_div_op_spec (s s1 s2 : MyStack) (right_arg left_arg : ℤ)
    (hp1 : RpnCalculator.popE s = .ok (right_arg, s1))
    (hp2 : RpnCalculator.popE s1 = .ok (left_arg, s2)) :
    RpnCalculator.evalOp s RpnCalculator.FLOOR =
      RpnCalculator.pushE s2 (Int.fdiv left_arg right_arg) ∧
    (right_arg ≠ 0 →
      Int.fdiv left_arg right_arg = ⌊(left_arg : ℚ) / (right_arg : ℚ)⌋) ∧
    (right_arg = 0 → Int.fdiv left_arg right_arg = 0) := by
  refine ⟨?_, fdiv_eq_floor left_arg right_arg, ?_⟩
  · unfold RpnCalculator.evalOp
    simp only [hp1, hp2]
    rw [if_neg (by decide), if_neg (by decide), if_pos (by decide)]
  · intro hz
    rw [hz]
    exact Int.fdiv_zero left_arg

/-- Witness for C6 on the stack holding `[-7, 2]`: `-7 // 2 = -4`. -/
theorem floor_div_op_spec_witness :
    RpnCalculator.evalOp ⟨2, 1, [-7, 2], 2⟩ RpnCalculator.FLOOR =
      RpnCalculator.pushE ⟨2, 1, [-7, 2], 0⟩ (Int.fdiv (-7) 2) ∧
    Int.fdiv (-7) 2 = -4 := by
  have h := (floor_div_op_spec ⟨2, 1, [-7, 2], 2⟩ ⟨2, 1, [-7, 2], 1⟩
      ⟨2, 1, [-7, 2], 0⟩ 2 (-7) rfl rfl).1
  exact ⟨h, by decide⟩

/-- C7: the empty string parses to the empty token sequence and evaluating
it fails with `StackUnderflow` (the post-evaluation check passes with
stack size 0 and the final pop underflows). -/
theorem eval_empty_string_underflow :
    RpnCalculator.eval "" = .error .stackUnderflow ∧
    RpnCalculator.parse "" = [] :=
  ⟨rfl, rfl⟩

/-- C8: every reachable stack satisfies `0 ≤ size ≤ capacity`, and the
backing storage always has exactly `capacity` slots (so `size` indexes one
past the last valid element). -/
theorem reachable_stack_invariant (s : MyStack) (h : ReachableStack s) :
    0 ≤ s.top_of_stack ∧ s.top_of_stack ≤ s.capacity ∧
    (s.stack.length : ℤ) = s.capacity := by
  induction h with
  | new d c s hnew =>
    unfold MyStack.new at hnew
    split_ifs at hnew with hv
    · simp only [Except.ok.injEq] at hnew
      subst hnew
      unfold MyStack.validate_capacity at hv
      simp only [decide_eq_true_eq, MyStack.MAX_CAPACITY] at hv
      show 0 ≤ (0 : ℤ) ∧ (0 : ℤ) ≤ c ∧
        ((List.replicate c.toNat (0 : ℤ)).length : ℤ) = c
      simp only [List.length_replicate]
      refine ⟨le_rfl, ?_, ?_⟩ <;> omega
  | clear s hs ih =>
    obtain ⟨h1, h2, h3⟩ := ih
    show 0 ≤ (0 : ℤ) ∧ (0 : ℤ) ≤ s.capacity ∧
      ((List.replicate s.capacity.toNat (0 : ℤ)).length : ℤ) = s.capacity
    simp only [List.length_replicate]
    refine ⟨le_rfl, ?_, ?_⟩ <;> omega
  | push s v hs ih =>
    obtain ⟨h1, h2, h3⟩ := ih
    unfold MyStack.push
    by_cases hf : s.is_full
    · rw [if_pos hf]; exact ⟨h1, h2, h3⟩
    · rw [if_neg hf]
      unfold MyStack.is_full at hf
      simp only [beq_iff_eq] at hf
      show 0 ≤ s.top_of_stack + 1 ∧ s.top_of_stack + 1 ≤ s.capacity ∧
        ((s.stack.set s.top_of_stack.toNat v).length : ℤ) = s.capacity
      simp only [List.length_set]
      refine ⟨?_, ?_, ?_⟩ <;> omega
  | pop s hs ih =>
    obtain ⟨h1, h2, h3⟩ := ih
    unfold MyStack.pop
    by_cases he : s.is_empty
    · rw [if_pos he]; exact ⟨h1, h2, h3⟩
    · rw [if_neg he]
      unfold MyStack.is_empty at he
      simp only [beq_iff_eq] at he
      show 0 ≤ s.top_of_stack - 1 ∧ s.top_of_stack - 1 ≤ s.capacity ∧
        (s.stack.length : ℤ) = s.capacity
      exact ⟨by omega, by omega, h3⟩

/-- Witness for C8 on the stack produced by `new(1, 2)`. -/
theorem reachable_stack_invariant_witness :
    0 ≤ (⟨2, 1, [0, 0], 0⟩ : MyStack).top_of_stack ∧
    (⟨2, 1, [0, 0], 0⟩ : MyStack).top_of_stack ≤
      (⟨2, 1, [0, 0], 0⟩ : MyStack).capacity ∧
    (((⟨2, 1, [0, 0], 0⟩ : MyStack).stack.length : ℤ) =
      (⟨2, 1, [0, 0], 0⟩ : MyStack).capacity) :=
  reachable_stack_invariant ⟨2, 1, [0, 0], 0⟩ (ReachableStack.new 1 2 _ rfl)

/-- Running `multFuel` with fuel at least the recursion depth reproduces
`mult`: the recursion tree of `mult` is finite at every input. -/
theorem multFuel_of_depth_le :
    ∀ (n : Nat) (x y : ℤ), RpnCalculator.multDepth x y ≤ n →
      RpnCalculator.multFuel n x y = some (RpnCalculator.mult x y) := by
  intro n
  induction n with
  | zero =>
    intro x y h
    exact absurd h (by unfold RpnCalculator.multDepth; split_ifs <;> omega)
  | succ k ih =>
    intro x y h
    simp only [RpnCalculator.multFuel]
    rw [RpnCalculator.mult.eq_def]
    by_cases h0 : y = 0 ∨ x = 0
    · rw [if_pos h0, if_pos h0]
    · rw [if_neg h0, if_neg h0]
      by_cases h1 : x < 0 ∧ y < 0
      · rw [if_pos h1, if_pos h1]
        rw [ih |x| (|x| - 1) (by
          revert h
          unfold RpnCalculator.multDepth
          simp only [Int.abs_eq_natAbs]
          split_ifs <;> omega)]
        rfl
      · rw [if_neg h1, if_neg h1]
        by_cases h2 : y < 0 ∧ 0 < x
        · rw [if_pos h2, if_pos h2]
          rw [ih y (x - 1) (by
            revert h
            unfold RpnCalculator.multDepth
            split_ifs <;> omega)]
          rfl
        · rw [if_neg h2, if_neg h2]
          rw [ih x (y - 1) (by
            revert h
            unfold RpnCalculator.multDepth
            split_ifs <;> omega)]
          rfl

/-- C10: `mult` terminates on every pair of integer inputs — fuel equal to
the explicit non-negative measure `multDepth x y` (which every recursive
call strictly decreases) suffices for the fuel-indexed version to bottom
out and agree with `mult`. -/
theorem mult_terminates (x y : ℤ) :
    RpnCalculator.multFuel (RpnCalculator.multDepth x y) x y =
      some (RpnCalculator.mult x y) :=
  multFuel_of_depth_le _ x y le_rfl
